import Mathlib

/-!
Verification development for the IotWebConfLite repository
(`src/IotWebConf.cpp`, `IotWebConf.h`, `IotWebConfSettings.h`).

The persistent store (ESP `EEPROM`) is modelled as a total byte map
`Nat → Nat` whose writes are reduced `% 256`.  The parameter registry
(`ConfigItem` / `ParameterGroup`) is implemented in `IotWebConfParameter.*`,
which is not part of the repository snapshot; its operations are modelled
from the specification (§4.1) and every such definition carries a
`Modelled from the spec:` doc comment.  Everything else is translated
directly from `IotWebConf.cpp`.
-/

namespace IotWebConfLite

/-- `IOTWEBCONF_CONFIG_START` from IotWebConfSettings.h. -/
def IOTWEBCONF_CONFIG_START : Nat := 0

/-- `IOTWEBCONF_CONFIG_VERSION_LENGTH` from IotWebConfSettings.h. -/
def IOTWEBCONF_CONFIG_VERSION_LENGTH : Nat := 4

/-- `IOTWEBCONF_WORD_LEN` from IotWebConfSettings.h. -/
def IOTWEBCONF_WORD_LEN : Nat := 33

/-- `IOTWEBCONF_PASSWORD_LEN` from IotWebConfSettings.h. -/
def IOTWEBCONF_PASSWORD_LEN : Nat := 33

/-- The EEPROM byte store: a total map from addresses to byte values. -/
abbrev EEPROM := Nat → Nat

/-- `EEPROM.write(addr, v)`: the cell takes the byte value `v % 256`. -/
def eepromWrite (e : EEPROM) (addr v : Nat) : EEPROM :=
  fun a => if a = addr then v % 256 else e a

/-- `IotWebConf::writeEepromValue(start, valueBuffer, length)`:
writes the buffer bytes to consecutive cells starting at `start`. -/
def writeEepromValue (e : EEPROM) (start : Nat) : List Nat → EEPROM
  | [] => e
  | b :: bs => writeEepromValue (eepromWrite e start b) (start + 1) bs

/-- `IotWebConf::readEepromValue(start, valueBuffer, length)`:
reads `len` consecutive cells starting at `start`. -/
def readEepromValue (e : EEPROM) (start len : Nat) : List Nat :=
  (List.range len).map fun t => e (start + t)

/-- Modelled from the spec: a leaf `ConfigItem` (§3 data model) — the
concrete `Parameter` classes live in the missing `IotWebConfParameter.*`.
`value` is the fixed-capacity byte buffer (its length is the storage
capacity fixed at construction), `defaultValue` the raw default bytes,
`errorMessage` the mutable per-item validation error. -/
structure LeafData where
  id : String
  label : String
  value : List Nat
  defaultValue : List Nat
  visible : Bool
  errorMessage : Option String
deriving DecidableEq

/-- Modelled from the spec: the parameter tree — a `ConfigItem` is either a
leaf parameter or a `ParameterGroup` with an ordered child list (§3). -/
inductive ConfigItem where
  | leaf (l : LeafData)
  | group (id : String) (children : List ConfigItem)

mutual
/-- Structural boolean equality on `ConfigItem` (the derive handler does not
support nested inductives). -/
def ConfigItem.beq : ConfigItem → ConfigItem → Bool
  | .leaf a, .leaf b => a == b
  | .group g cs, .group h ds => g == h && ConfigItem.beqList cs ds
  | _, _ => false
def ConfigItem.beqList : List ConfigItem → List ConfigItem → Bool
  | [], [] => true
  | a :: as, b :: bs => ConfigItem.beq a b && ConfigItem.beqList as bs
  | _, _ => false
end

mutual
theorem ConfigItem.beq_iff : ∀ a b : ConfigItem, ConfigItem.beq a b = true ↔ a = b
  | .leaf a, .leaf b => by simp [ConfigItem.beq, beq_iff_eq]
  | .leaf _, .group _ _ => by simp [ConfigItem.beq]
  | .group _ _, .leaf _ => by simp [ConfigItem.beq]
  | .group g cs, .group h ds => by
    simp [ConfigItem.beq, Bool.and_eq_true, beq_iff_eq,
      ConfigItem.beqList_iff cs ds]
theorem ConfigItem.beqList_iff : ∀ as bs : List ConfigItem,
    ConfigItem.beqList as bs = true ↔ as = bs
  | [], [] => by simp [ConfigItem.beqList]
  | [], _ :: _ => by simp [ConfigItem.beqList]
  | _ :: _, [] => by simp [ConfigItem.beqList]
  | a :: as, b :: bs => by
    simp [ConfigItem.beqList, Bool.and_eq_true, ConfigItem.beq_iff a b,
      ConfigItem.beqList_iff as bs]
end

instance : DecidableEq ConfigItem := fun a b =>
  decidable_of_iff _ (ConfigItem.beq_iff a b)

/-- `strncpy`-style copy of `src` into a buffer of capacity `n`:
truncate to `n` bytes and pad the remainder with zero bytes. -/
def takePad (src : List Nat) (n : Nat) : List Nat :=
  src.take n ++ List.replicate (n - src.length) 0

mutual
/-- Modelled from the spec: `storageSize()` — leaf contributes its fixed
capacity, a group the sum over its children in registration order (§4.1). -/
def getStorageSize : ConfigItem → Nat
  | .leaf l => l.value.length
  | .group _ cs => getStorageSizeList cs
def getStorageSizeList : List ConfigItem → Nat
  | [] => 0
  | c :: cs => getStorageSize c + getStorageSizeList cs
end

mutual
/-- Modelled from the spec: `applyDefaultValue()` — a leaf copies its
default into its current fixed-capacity buffer, a group recurses (§4.1). -/
def applyDefaultValue : ConfigItem → ConfigItem
  | .leaf l => .leaf { l with value := takePad l.defaultValue l.value.length }
  | .group g cs => .group g (applyDefaultValueList cs)
def applyDefaultValueList : List ConfigItem → List ConfigItem
  | [] => []
  | c :: cs => applyDefaultValue c :: applyDefaultValueList cs
end

/-- Events recording the EEPROM/callback interactions of a load or save
call: `begin n` is `EEPROM.begin(n)`, `close` is `EEPROM.end()`,
`read`/`write` record the per-leaf `readEepromValue`/`writeEepromValue`
spans (offset, length) issued by the traversal consumers. -/
inductive EepromEvent where
  | begin (size : Nat)
  | close
  | read (start len : Nat)
  | write (start len : Nat)
  | savingCallback (size : Nat)
  | savedCallback
deriving DecidableEq

mutual
/-- Modelled from the spec: `loadValue(consumer)` with the consumer used by
`IotWebConf::loadConfig` — each leaf, in traversal order, reads exactly its
capacity bytes from the running offset into its buffer (§4.1); returns the
updated tree, the final offset, and the read spans. -/
def loadValue : ConfigItem → Nat → EEPROM → ConfigItem × Nat × List EepromEvent
  | .leaf l, start, e =>
    (.leaf { l with value := readEepromValue e start l.value.length },
     start + l.value.length, [.read start l.value.length])
  | .group g cs, start, e =>
    let r := loadValueList cs start e
    (.group g r.1, r.2.1, r.2.2)
def loadValueList : List ConfigItem → Nat → EEPROM → List ConfigItem × Nat × List EepromEvent
  | [], start, _ => ([], start, [])
  | c :: cs, start, e =>
    let r1 := loadValue c start e
    let r2 := loadValueList cs r1.2.1 e
    (r1.1 :: r2.1, r2.2.1, r1.2.2 ++ r2.2.2)
end

mutual
/-- Modelled from the spec: `storeValue(producer)` with the producer used by
`IotWebConf::saveConfig` — each leaf, in traversal order, hands its buffer
bytes to `writeEepromValue` at the running offset (§4.1); returns the new
store, the final offset, and the write spans. -/
def storeValue : ConfigItem → Nat → EEPROM → EEPROM × Nat × List EepromEvent
  | .leaf l, start, e =>
    (writeEepromValue e start l.value, start + l.value.length,
     [.write start l.value.length])
  | .group _ cs, start, e => storeValueList cs start e
def storeValueList : List ConfigItem → Nat → EEPROM → EEPROM × Nat × List EepromEvent
  | [], start, e => (e, start, [])
  | c :: cs, start, e =>
    let r1 := storeValue c start e
    let r2 := storeValueList cs r1.2.1 r1.1
    (r2.1, r2.2.1, r1.2.2 ++ r2.2.2)
end

/-- `IotWebConf::testConfigVersion()`: compares the
`IOTWEBCONF_CONFIG_VERSION_LENGTH` bytes at the head of the region
byte-for-byte against the expected version bytes, false on any mismatch. -/
def testConfigVersion (ver : Nat → Nat) (e : EEPROM) : Bool :=
  (List.range IOTWEBCONF_CONFIG_VERSION_LENGTH).all fun t =>
    e (IOTWEBCONF_CONFIG_START + t) == ver t

/-- `IotWebConf::saveConfigVersion()`: writes the expected version bytes at
the head of the region. -/
def saveConfigVersion (ver : Nat → Nat) (e : EEPROM) : EEPROM :=
  writeEepromValue e IOTWEBCONF_CONFIG_START
    ((List.range IOTWEBCONF_CONFIG_VERSION_LENGTH).map ver)

/-- `IotWebConf::initConfig()`: the total storage size of the registry root. -/
def initConfig (root : ConfigItem) : Nat := getStorageSize root

/-- `IotWebConf::loadConfig()` (IotWebConf.cpp lines 114-146), applied to the
authoritative root `_allParameters`.  `EEPROM.begin` is recorded as a
`begin` event.  Note: in the source, both the version-match branch (line
132) and the mismatch branch (line 142) `return` before the trailing
`EEPROM.end()` at line 145, so no `close` event is ever emitted. -/
def loadConfig (root : ConfigItem) (ver : Nat → Nat) (e : EEPROM) :
    Bool × ConfigItem × List EepromEvent :=
  let size := initConfig root
  let beginEv := EepromEvent.begin
    (IOTWEBCONF_CONFIG_START + IOTWEBCONF_CONFIG_VERSION_LENGTH + size)
  if testConfigVersion ver e then
    let start := IOTWEBCONF_CONFIG_START + IOTWEBCONF_CONFIG_VERSION_LENGTH
    let r := loadValue root start e
    (true, r.1, beginEv :: r.2.2)
  else
    (false, applyDefaultValue root, [beginEv])

/-- `IotWebConf::saveConfig()` (IotWebConf.cpp lines 148-179), applied to the
authoritative root `_allParameters`.  The optional saving/saved callbacks
are recorded as events when registered; the version-tag write of
`saveConfigVersion` acts directly on the store.  Unlike `loadConfig`, the
`EEPROM.end()` at line 171 is reached, recorded as a `close` event. -/
def saveConfig (savingCb savedCb : Bool) (root : ConfigItem) (ver : Nat → Nat)
    (e : EEPROM) : EEPROM × List EepromEvent :=
  let size := initConfig root
  let e1 := saveConfigVersion ver e
  let r := storeValue root (IOTWEBCONF_CONFIG_START + IOTWEBCONF_CONFIG_VERSION_LENGTH) e1
  (r.1,
   (if savingCb then [EepromEvent.savingCallback size] else [])
     ++ [EepromEvent.begin (IOTWEBCONF_CONFIG_START + IOTWEBCONF_CONFIG_VERSION_LENGTH + size)]
     ++ r.2.2 ++ [EepromEvent.close]
     ++ (if savedCb then [EepromEvent.savedCallback] else []))

mutual
/-- All leaf buffer bytes of the tree are in byte range (`< 256`). -/
def bytesOk : ConfigItem → Bool
  | .leaf l => l.value.all (· < 256)
  | .group _ cs => bytesOkList cs
def bytesOkList : List ConfigItem → Bool
  | [] => true
  | c :: cs => bytesOk c && bytesOkList cs
end

mutual
/-- The per-leaf (offset, length) spans of the persistence traversal
starting at `start`: each leaf occupies the running sum of the storage
sizes before it. -/
def leafSpans : ConfigItem → Nat → List (Nat × Nat)
  | .leaf l, start => [(start, l.value.length)]
  | .group _ cs, start => leafSpansList cs start
def leafSpansList : List ConfigItem → Nat → List (Nat × Nat)
  | [], _ => []
  | c :: cs, start => leafSpans c start ++ leafSpansList cs (start + getStorageSize c)
end

mutual
/-- The leaf buffers of the tree, in traversal order. -/
def leafValues : ConfigItem → List (List Nat)
  | .leaf l => [l.value]
  | .group _ cs => leafValuesList cs
def leafValuesList : List ConfigItem → List (List Nat)
  | [] => []
  | c :: cs => leafValues c ++ leafValuesList cs
end

mutual
/-- The default of each leaf as it lands in the leaf's fixed-capacity
buffer (truncated / zero-padded), in traversal order. -/
def leafDefaults : ConfigItem → List (List Nat)
  | .leaf l => [takePad l.defaultValue l.value.length]
  | .group _ cs => leafDefaultsList cs
def leafDefaultsList : List ConfigItem → List (List Nat)
  | [] => []
  | c :: cs => leafDefaults c ++ leafDefaultsList cs
end

/-- The sizes of the `EEPROM.begin` events of a trace. -/
def beginSizes (evs : List EepromEvent) : List Nat :=
  evs.filterMap fun ev => match ev with | .begin n => some n | _ => none

/-- The (offset, length) spans of the `read` events of a trace. -/
def readSpans (evs : List EepromEvent) : List (Nat × Nat) :=
  evs.filterMap fun ev => match ev with | .read s l => some (s, l) | _ => none

/-- The (offset, length) spans of the `write` events of a trace. -/
def writeSpans (evs : List EepromEvent) : List (Nat × Nat) :=
  evs.filterMap fun ev => match ev with | .write s l => some (s, l) | _ => none

/-! ### Arduino strings, web requests, and the captive portal -/

/-- Arduino `String::toLowerCase()` — per-character ASCII lowering. -/
def toLowerCase (s : List Char) : List Char :=
  s.map fun c => if 'A' ≤ c ∧ c ≤ 'Z' then Char.ofNat (c.toNat + 32) else c

/-- Arduino `String::startsWith(t)` — `t` is a (case-sensitive) head
segment of `s`. -/
def startsWith : List Char → List Char → Bool
  | _, [] => true
  | [], _ :: _ => false
  | c :: s, d :: t => c == d && startsWith s t

/-- `IotWebConf::isIp(str)` (IotWebConf.cpp lines 428-439): false as soon as
a character is neither `.` nor a decimal digit, true otherwise. -/
def isIp (s : List Char) : Bool :=
  s.all fun c => c == '.' || ('0' ≤ c && c ≤ '9')

/-- `IotWebConf::toStringIp(ip)` (lines 442-451): dotted decimal of the four
bytes of the 32-bit address, least significant byte first. -/
def toStringIp (ip : Nat) : List Char :=
  (toString ((ip >>> 0) % 256)).toList ++ ['.']
    ++ (toString ((ip >>> 8) % 256)).toList ++ ['.']
    ++ (toString ((ip >>> 16) % 256)).toList ++ ['.']
    ++ (toString ((ip >>> 24) % 256)).toList

/-- The request accessor (`WebRequestWrapper`): host header, local address,
the result of `authenticate(IOTWEBCONF_ADMIN_USER_NAME, _apPassword)`, and
the submitted form fields as an association list. -/
structure WebRequest where
  hostHeader : List Char
  localIP : Nat
  authOk : Bool
  args : List (String × List Char)
deriving DecidableEq

/-- `WebRequestWrapper::hasArg(name)`. -/
def WebRequest.hasArg (req : WebRequest) (nm : String) : Bool :=
  (req.args.lookup nm).isSome

/-- `WebRequestWrapper::arg(name)` — empty string when the field is absent. -/
def WebRequest.arg (req : WebRequest) (nm : String) : List Char :=
  (req.args.lookup nm).getD []

/-- Response-emission primitives invoked on the request wrapper, in call
order. -/
inductive RespAction where
  | requestAuthentication
  | sendHeader (name : String) (value : List Char) (first : Bool)
  | setContentLengthUnknown
  | send (code : Nat) (contentType : String) (body : List Char)
  | sendContent (content : List Char)
  | stop
deriving DecidableEq

/-- `IotWebConf::handleCaptivePortal` (lines 405-425).  `thingName` is the
C string read from the `_thingName` buffer; only it is lowercased — the
host header is compared as received.  Returns the handled flag and the
emitted response actions. -/
def handleCaptivePortal (thingName : List Char) (req : WebRequest) :
    Bool × List RespAction :=
  let host := req.hostHeader
  let tn := toLowerCase thingName
  if !isIp host && !startsWith host tn then
    (true,
     [.sendHeader "Location" (("http://".toList) ++ toStringIp req.localIP) true,
      .send 302 "text/plain" [],
      .stop])
  else
    (false, [])

/-! ### The IotWebConf object state and the config portal -/

/-- Bytes of a submitted string as stored into a parameter buffer. -/
def charsToBytes (s : List Char) : List Nat :=
  s.map fun c => c.toNat % 256

/-- Reading a C string out of a fixed-capacity buffer: the bytes before the
first zero byte. -/
def cString (bs : List Nat) : List Nat :=
  bs.takeWhile (· ≠ 0)

mutual
/-- Modelled from the spec: `clearErrorMessage()` — group recurses, leaf
resets its error (§4.1). -/
def clearErrorMessage : ConfigItem → ConfigItem
  | .leaf l => .leaf { l with errorMessage := none }
  | .group g cs => .group g (clearErrorMessageList cs)
def clearErrorMessageList : List ConfigItem → List ConfigItem
  | [] => []
  | c :: cs => clearErrorMessage c :: clearErrorMessageList cs
end

mutual
/-- Modelled from the spec: `update(requestContext)` — a leaf copies its
identifier's submitted value, length-capped to its byte capacity, into its
current buffer; a group recurses (§4.1). -/
def updateItem : ConfigItem → WebRequest → ConfigItem
  | .leaf l, req => .leaf { l with value := takePad (charsToBytes (req.arg l.id)) l.value.length }
  | .group g cs, req => .group g (updateItemList cs req)
def updateItemList : List ConfigItem → WebRequest → List ConfigItem
  | [], _ => []
  | c :: cs, req => updateItem c req :: updateItemList cs req
end

mutual
/-- Modelled from the spec: `renderHtml(hasSubmittedData, requestContext)`
— a visible leaf renders its label, the value (submitted data if present,
else the current buffer) and any error message; an invisible leaf renders
nothing; a group concatenates its children's markup (§4.1; the surrounding
black-box template text is not modelled). -/
def renderHtml : ConfigItem → Bool → WebRequest → List Char
  | .leaf l, hasData, req =>
    if l.visible then
      l.label.toList
        ++ (if hasData then req.arg l.id
            else (cString l.value).map Char.ofNat)
        ++ (match l.errorMessage with | some m => m.toList | none => [])
    else []
  | .group _ cs, hasData, req => renderHtmlList cs hasData req
def renderHtmlList : List ConfigItem → Bool → WebRequest → List Char
  | [], _, _ => []
  | c :: cs, hasData, req => renderHtml c hasData req ++ renderHtmlList cs hasData req
end

/-- The black-box HTML template fragments (§6 external collaborator); the
controller only concatenates them, so they are opaque data here and the
`\x7bv\x7d` / `\x7bu\x7d` placeholder substitutions inside them are not
modelled. -/
structure HtmlFormatProvider where
  head : List Char
  script : List Char
  style : List Char
  headExtension : List Char
  headEnd : List Char
  formStart : List Char
  formEnd : List Char
  htmlEnd : List Char
  updateFragment : List Char
  configVerFragment : List Char
deriving DecidableEq

/-- The `IotWebConf` object: the system parameter buffers (`_thingName`,
`_apPassword` — shared with `_thingNameParameter` / `_apPasswordParameter`
as their value buffers), the constructor arguments, the registered custom
and hidden trees, error-message state, callbacks, and collaborators. -/
structure IotWebConf where
  thingNameValue : List Nat
  apPasswordValue : List Nat
  thingNameDefault : List Nat
  initialApPassword : List Nat
  configVersion : List Char
  thingNameError : Option String
  apPasswordError : Option String
  customParameterGroups : List ConfigItem
  hiddenParameters : List ConfigItem
  formValidator : Option (WebRequest → Bool)
  savingCb : Bool
  savedCb : Bool
  updatePath : Option (List Char)
  htmlFormatProvider : HtmlFormatProvider

/-- Byte `t` of the expected config version tag (`_configVersion[t]`). -/
def verByte (s : IotWebConf) (t : Nat) : Nat :=
  ((s.configVersion.getD t (Char.ofNat 0)).toNat) % 256

/-- `_thingNameParameter` — `TextParameter("Thing name", "iwcThingName",
_thingName, IOTWEBCONF_WORD_LEN)` with `defaultValue = defaultThingName`
(constructor, IotWebConf.cpp line 34). -/
def thingNameParameter (s : IotWebConf) : LeafData :=
  { id := "iwcThingName", label := "Thing name", value := s.thingNameValue,
    defaultValue := s.thingNameDefault, visible := true,
    errorMessage := s.thingNameError }

/-- `_apPasswordParameter` — `PasswordParameter("AP password",
"iwcApPassword", _apPassword, IOTWEBCONF_PASSWORD_LEN)`.  Modelled from the
spec: its construction supplies no default, so the parameter default is
empty. -/
def apPasswordParameter (s : IotWebConf) : LeafData :=
  { id := "iwcApPassword", label := "AP password", value := s.apPasswordValue,
    defaultValue := [], visible := true, errorMessage := s.apPasswordError }

/-- `_systemParameters` as wired by the constructor (lines 41-42). -/
def systemParameters (s : IotWebConf) : ConfigItem :=
  .group "iwcSys" [.leaf (thingNameParameter s), .leaf (apPasswordParameter s)]

/-- `_allParameters` as wired by the constructor (lines 44-46): the
authoritative persistence root holds the system group, the custom groups
and the hidden parameters, in that order. -/
def allParameters (s : IotWebConf) : ConfigItem :=
  .group "iwcAll"
    [systemParameters s,
     .group "iwcCustom" s.customParameterGroups,
     .group "hidden" s.hiddenParameters]

/-- Writes a (shape-preserving) result of a traversal over `allParameters`
back into the object: buffers are shared in the C++ object, so the leaf
values of the traversal result are the new buffer contents. -/
def absorbTree (s : IotWebConf) (t : ConfigItem) : IotWebConf :=
  match t with
  | .group _ [.group _ [.leaf tn, .leaf ap], .group _ custom, .group _ hidden] =>
    { s with thingNameValue := tn.value, apPasswordValue := ap.value,
             thingNameError := tn.errorMessage, apPasswordError := ap.errorMessage,
             customParameterGroups := custom, hiddenParameters := hidden }
  | _ => s

/-- `IotWebConf::init()` (lines 56-79): load the configuration; when it is
invalid, `strncpy` the initial AP password supplied at construction into
the `_apPassword` buffer.  The mdns/WiFi host setup is outside the model. -/
def IotWebConf.init (s : IotWebConf) (e : EEPROM) : Bool × IotWebConf :=
  let r := loadConfig (allParameters s) (verByte s) e
  let s1 := absorbTree s r.2.1
  let s2 :=
    if r.1 then s1
    else { s1 with apPasswordValue := takePad s.initialApPassword IOTWEBCONF_PASSWORD_LEN }
  (r.1, s2)

/-- The thing-name error text of `validateForm` (line 356). -/
def thingNameErrorMessage : String := "Give a name with at least 3 characters."

/-- The AP-password error text of `validateForm` (line 363). -/
def apPasswordErrorMessage : String := "Password length must be at least 8 characters."

/-- Steps of a `validateForm` pass, in invocation order. -/
inductive ValEvent where
  | clearErrors
  | externalValidator
  | checkThingName
  | checkApPassword
deriving DecidableEq

/-- The result of the external form validator: the callback's verdict when
one is registered, `true` otherwise (lines 345-349). -/
def externalValidatorResult (s : IotWebConf) (req : WebRequest) : Bool :=
  match s.formValidator with
  | some f => f req
  | none => true

/-- `IotWebConf::validateForm` (lines 338-373): clear the error messages of
the system and custom trees, run the external validator first (when
registered), then the two built-in checks — each check runs and records its
error regardless of earlier outcomes, only forcing the overall verdict to
false.  Returns the verdict, the new object state, and the step trace. -/
def validateForm (s : IotWebConf) (req : WebRequest) :
    Bool × IotWebConf × List ValEvent :=
  let s0 := { s with thingNameError := none, apPasswordError := none,
                     customParameterGroups := clearErrorMessageList s.customParameterGroups }
  let valid0 := externalValidatorResult s req
  let l1 := (req.arg "iwcThingName").length
  let r1 :=
    if 3 > l1 then
      (false, { s0 with thingNameError := some thingNameErrorMessage })
    else (valid0, s0)
  let l2 := (req.arg "iwcApPassword").length
  let r2 :=
    if 0 < l2 && l2 < 8 then
      (false, { r1.2 with apPasswordError := some apPasswordErrorMessage })
    else r1
  (r2.1, r2.2,
   [ValEvent.clearErrors]
     ++ (if s.formValidator.isSome then [ValEvent.externalValidator] else [])
     ++ [ValEvent.checkThingName, ValEvent.checkApPassword])

/-- The content sent before the rendered parameters of the config form
(lines 266-275): head, script, style, head extension, head end, form start. -/
def formPageHeadContent (s : IotWebConf) : List Char :=
  s.htmlFormatProvider.head ++ s.htmlFormatProvider.script
    ++ s.htmlFormatProvider.style ++ s.htmlFormatProvider.headExtension
    ++ s.htmlFormatProvider.headEnd ++ s.htmlFormatProvider.formStart

/-- The content sent after the rendered parameters (lines 286-302): form
end, optional firmware-update fragment, config-version fragment, page end. -/
def formPageTailContent (s : IotWebConf) : List Char :=
  s.htmlFormatProvider.formEnd
    ++ (match s.updatePath with
        | some _ => s.htmlFormatProvider.updateFragment
        | none => [])
    ++ s.htmlFormatProvider.configVerFragment ++ s.htmlFormatProvider.htmlEnd

/-- The response of the form-render branch of `handleConfig`
(lines 254-306): caching headers, chunked 200 response, head content, the
rendered system and custom parameter trees, tail content, terminating empty
chunk, connection stop. -/
def renderFormPage (s : IotWebConf) (dataArrived : Bool) (req : WebRequest) :
    List RespAction :=
  [.sendHeader "Cache-Control" "no-cache, no-store, must-revalidate".toList false,
   .sendHeader "Pragma" "no-cache".toList false,
   .sendHeader "Expires" "-1".toList false,
   .setContentLengthUnknown,
   .send 200 "text/html; charset=UTF-8" [],
   .sendContent (formPageHeadContent s),
   .sendContent (renderHtml (systemParameters s) dataArrived req),
   .sendContent (renderHtml (.group "iwcCustom" s.customParameterGroups) dataArrived req),
   .sendContent (formPageTailContent s),
   .sendContent [],
   .stop]

/-- The confirmation response of the save branch of `handleConfig`
(lines 322-334). -/
def confirmPage (s : IotWebConf) : List RespAction :=
  let page := s.htmlFormatProvider.head ++ s.htmlFormatProvider.script
    ++ s.htmlFormatProvider.style ++ s.htmlFormatProvider.headExtension
    ++ s.htmlFormatProvider.headEnd
    ++ "Configuration saved. ".toList
    ++ "Return to <a href=\x27/\x27>home page</a>.".toList
    ++ s.htmlFormatProvider.htmlEnd
  [.sendHeader "Content-Length" (toString page.length).toList false,
   .send 200 "text/html; charset=UTF-8" page]

/-- `_systemParameters.update(...)` and `_customParameterGroups.update(...)`
(lines 317-318) written back into the object state: the two system leaves
and every custom leaf take their submitted values; hidden parameters are
not touched. -/
def updateFromRequest (s : IotWebConf) (req : WebRequest) : IotWebConf :=
  { s with
    thingNameValue := takePad (charsToBytes (req.arg "iwcThingName")) s.thingNameValue.length,
    apPasswordValue := takePad (charsToBytes (req.arg "iwcApPassword")) s.apPasswordValue.length,
    customParameterGroups := updateItemList s.customParameterGroups req }

/-- `IotWebConf::handleConfig` (lines 240-336): authenticate; if the
`iotSave` marker is absent — or present but `validateForm` fails (the
validator only runs when the marker is present, short-circuit at line 252)
— render the form; otherwise update the system and custom trees from the
submission, save the authoritative root, and emit the confirmation page.
Returns the new object state, the new store, the response actions, and the
EEPROM events. -/
def handleConfig (s : IotWebConf) (req : WebRequest) (e : EEPROM) :
    IotWebConf × EEPROM × List RespAction × List EepromEvent :=
  if !req.authOk then (s, e, [.requestAuthentication], [])
  else
    let dataArrived := req.hasArg "iotSave"
    if !dataArrived then (s, e, renderFormPage s dataArrived req, [])
    else
      let vr := validateForm s req
      if !vr.1 then (vr.2.1, e, renderFormPage vr.2.1 dataArrived req, [])
      else
        let s2 := updateFromRequest vr.2.1 req
        let sv := saveConfig s2.savingCb s2.savedCb (allParameters s2) (verByte s2) e
        (s2, sv.1, confirmPage s2, sv.2)

/-! ### Lemmas about the persistence traversals -/

theorem writeEepromValue_frame (bs : List Nat) (e : EEPROM) (start a : Nat)
    (h : a < start ∨ start + bs.length ≤ a) :
    writeEepromValue e start bs a = e a := by
  induction bs generalizing e start with
  | nil => rfl
  | cons b bs ih =>
    simp only [writeEepromValue]
    rw [ih (eepromWrite e start b) (start + 1)
      (by simp only [List.length_cons] at h; omega)]
    simp only [eepromWrite]
    rw [if_neg (by simp only [List.length_cons] at h; omega)]

theorem writeEepromValue_get (bs : List Nat) (e : EEPROM) (start t : Nat)
    (h : t < bs.length) :
    writeEepromValue e start bs (start + t) = bs.getD t 0 % 256 := by
  induction bs generalizing e start t with
  | nil => simp at h
  | cons b bs ih =>
    cases t with
    | zero =>
      simp only [writeEepromValue, List.getD_cons_zero, Nat.add_zero]
      rw [writeEepromValue_frame bs _ (start + 1) start (Or.inl (by omega))]
      simp [eepromWrite]
    | succ t =>
      simp only [writeEepromValue, List.getD_cons_succ]
      rw [show start + (t + 1) = (start + 1) + t by omega]
      exact ih (eepromWrite e start b) (start + 1) t
        (by simp only [List.length_cons] at h; omega)

theorem readEepromValue_eq (v : List Nat) (e : EEPROM) (start : Nat)
    (h : ∀ t, t < v.length → e (start + t) = v.getD t 0) :
    readEepromValue e start v.length = v := by
  apply List.ext_getElem
  · simp [readEepromValue]
  · intro i h1 h2
    simp only [readEepromValue, List.getElem_map, List.getElem_range]
    rw [h i h2, List.getD_eq_getElem v 0 h2]

mutual
theorem storeValue_offset : ∀ (it : ConfigItem) (start : Nat) (e : EEPROM),
    (storeValue it start e).2.1 = start + getStorageSize it
  | .leaf _, _, _ => by simp [storeValue, getStorageSize]
  | .group g cs, start, e => by
    simpa [storeValue, getStorageSize] using storeValueList_offset cs start e
theorem storeValueList_offset : ∀ (cs : List ConfigItem) (start : Nat) (e : EEPROM),
    (storeValueList cs start e).2.1 = start + getStorageSizeList cs
  | [], _, _ => by simp [storeValueList, getStorageSizeList]
  | c :: cs, start, e => by
    simp only [storeValueList, getStorageSizeList]
    rw [storeValueList_offset cs _ _, storeValue_offset c start e]
    omega
end

mutual
theorem loadValue_offset : ∀ (it : ConfigItem) (start : Nat) (e : EEPROM),
    (loadValue it start e).2.1 = start + getStorageSize it
  | .leaf _, _, _ => by simp [loadValue, getStorageSize]
  | .group g cs, start, e => by
    simpa [loadValue, getStorageSize] using loadValueList_offset cs start e
theorem loadValueList_offset : ∀ (cs : List ConfigItem) (start : Nat) (e : EEPROM),
    (loadValueList cs start e).2.1 = start + getStorageSizeList cs
  | [], _, _ => by simp [loadValueList, getStorageSizeList]
  | c :: cs, start, e => by
    simp only [loadValueList, getStorageSizeList]
    rw [loadValueList_offset cs _ _, loadValue_offset c start e]
    omega
end

mutual
theorem storeValue_frame : ∀ (it : ConfigItem) (start : Nat) (e : EEPROM) (a : Nat),
    a < start → (storeValue it start e).1 a = e a
  | .leaf _, _, _, _, h => writeEepromValue_frame _ _ _ _ (Or.inl h)
  | .group _ cs, start, e, a, h => storeValueList_frame cs start e a h
theorem storeValueList_frame : ∀ (cs : List ConfigItem) (start : Nat) (e : EEPROM)
    (a : Nat), a < start → (storeValueList cs start e).1 a = e a
  | [], _, _, _, _ => rfl
  | c :: cs, start, e, a, h => by
    simp only [storeValueList]
    rw [storeValueList_frame cs _ _ a
      (by rw [storeValue_offset c start e]; omega)]
    exact storeValue_frame c start e a h
end

mutual
theorem storeValue_events : ∀ (it : ConfigItem) (start : Nat) (e : EEPROM),
    (storeValue it start e).2.2
      = (leafSpans it start).map fun p => EepromEvent.write p.1 p.2
  | .leaf _, _, _ => by simp [storeValue, leafSpans]
  | .group g cs, start, e => by
    simpa [storeValue, leafSpans] using storeValueList_events cs start e
theorem storeValueList_events : ∀ (cs : List ConfigItem) (start : Nat) (e : EEPROM),
    (storeValueList cs start e).2.2
      = (leafSpansList cs start).map fun p => EepromEvent.write p.1 p.2
  | [], _, _ => by simp [storeValueList, leafSpansList]
  | c :: cs, start, e => by
    simp only [storeValueList, leafSpansList, List.map_append]
    rw [storeValue_events c start e, storeValue_offset c start e,
      storeValueList_events cs _ _]
end

mutual
theorem loadValue_events : ∀ (it : ConfigItem) (start : Nat) (e : EEPROM),
    (loadValue it start e).2.2
      = (leafSpans it start).map fun p => EepromEvent.read p.1 p.2
  | .leaf _, _, _ => by simp [loadValue, leafSpans]
  | .group g cs, start, e => by
    simpa [loadValue, leafSpans] using loadValueList_events cs start e
theorem loadValueList_events : ∀ (cs : List ConfigItem) (start : Nat) (e : EEPROM),
    (loadValueList cs start e).2.2
      = (leafSpansList cs start).map fun p => EepromEvent.read p.1 p.2
  | [], _, _ => by simp [loadValueList, leafSpansList]
  | c :: cs, start, e => by
    simp only [loadValueList, leafSpansList, List.map_append]
    rw [loadValue_events c start e, loadValue_offset c start e,
      loadValueList_events cs _ _]
end

mutual
theorem loadValue_after_store : ∀ (it : ConfigItem) (start : Nat) (e f : EEPROM),
    bytesOk it = true →
    (∀ a, start ≤ a → a < start + getStorageSize it → f a = (storeValue it start e).1 a) →
    (loadValue it start f).1 = it
  | .leaf l, start, e, f, hb, hag => by
    simp only [bytesOk, List.all_eq_true, decide_eq_true_eq] at hb
    have hv : readEepromValue f start l.value.length = l.value := by
      apply readEepromValue_eq
      intro t ht
      rw [hag (start + t) (by omega) (by simp only [getStorageSize]; omega)]
      simp only [storeValue]
      rw [writeEepromValue_get l.value e start t ht]
      have hm : l.value.getD t 0 ∈ l.value := by
        rw [List.getD_eq_getElem l.value 0 ht]
        exact List.getElem_mem ht
      exact Nat.mod_eq_of_lt (hb _ hm)
    simp [loadValue, hv]
  | .group g cs, start, e, f, hb, hag => by
    simp only [bytesOk] at hb
    have := loadValueList_after_store cs start e f hb
      (by simpa [getStorageSize] using hag)
    simp [loadValue, this]
theorem loadValueList_after_store : ∀ (cs : List ConfigItem) (start : Nat) (e f : EEPROM),
    bytesOkList cs = true →
    (∀ a, start ≤ a → a < start + getStorageSizeList cs →
      f a = (storeValueList cs start e).1 a) →
    (loadValueList cs start f).1 = cs
  | [], _, _, _, _, _ => rfl
  | c :: cs, start, e, f, hb, hag => by
    simp only [bytesOkList, Bool.and_eq_true] at hb
    have hoff : (storeValue c start e).2.1 = start + getStorageSize c :=
      storeValue_offset c start e
    have hhd : (loadValue c start f).1 = c := by
      apply loadValue_after_store c start e f hb.1
      intro a ha1 ha2
      rw [hag a ha1 (by simp only [getStorageSizeList]; omega)]
      simp only [storeValueList]
      exact storeValueList_frame cs _ _ a (by omega)
    have htl : (loadValueList cs (start + getStorageSize c) f).1 = cs := by
      apply loadValueList_after_store cs (start + getStorageSize c)
        (storeValue c start e).1 f hb.2
      intro a ha1 ha2
      rw [hag a (by omega) (by simp only [getStorageSizeList]; omega)]
      simp only [storeValueList, hoff]
    simp only [loadValueList, hhd, loadValue_offset c start f, htl]
end

mutual
theorem applyDefaultValue_leafValues : ∀ (it : ConfigItem),
    leafValues (applyDefaultValue it) = leafDefaults it
  | .leaf _ => by simp [applyDefaultValue, leafValues, leafDefaults]
  | .group g cs => by
    simpa [applyDefaultValue, leafValues, leafDefaults] using
      applyDefaultValueList_leafValues cs
theorem applyDefaultValueList_leafValues : ∀ (cs : List ConfigItem),
    leafValuesList (applyDefaultValueList cs) = leafDefaultsList cs
  | [] => rfl
  | c :: cs => by
    simp only [applyDefaultValueList, leafValuesList, leafDefaultsList]
    rw [applyDefaultValue_leafValues c, applyDefaultValueList_leafValues cs]
end

theorem readSpans_map_read (spans : List (Nat × Nat)) :
    readSpans (spans.map fun p => EepromEvent.read p.1 p.2) = spans := by
  induction spans with
  | nil => rfl
  | cons p ps ih => simpa [readSpans, List.filterMap_cons] using ih

theorem writeSpans_map_write (spans : List (Nat × Nat)) :
    writeSpans (spans.map fun p => EepromEvent.write p.1 p.2) = spans := by
  induction spans with
  | nil => rfl
  | cons p ps ih => simpa [writeSpans, List.filterMap_cons] using ih

theorem beginSizes_map_read (spans : List (Nat × Nat)) :
    beginSizes (spans.map fun p => EepromEvent.read p.1 p.2) = [] := by
  induction spans with
  | nil => rfl
  | cons p ps ih => simp [beginSizes, List.filterMap_cons, ih]

theorem beginSizes_map_write (spans : List (Nat × Nat)) :
    beginSizes (spans.map fun p => EepromEvent.write p.1 p.2) = [] := by
  induction spans with
  | nil => rfl
  | cons p ps ih => simp [beginSizes, List.filterMap_cons, ih]

theorem writeSpans_append (l1 l2 : List EepromEvent) :
    writeSpans (l1 ++ l2) = writeSpans l1 ++ writeSpans l2 :=
  List.filterMap_append l1 l2 _

theorem writeSpans_nil : writeSpans [] = [] := rfl

theorem writeSpans_begin_cons (n : Nat) (l : List EepromEvent) :
    writeSpans (EepromEvent.begin n :: l) = writeSpans l := rfl

theorem writeSpans_close_cons (l : List EepromEvent) :
    writeSpans (EepromEvent.close :: l) = writeSpans l := rfl

theorem writeSpans_savingCb_cons (n : Nat) (l : List EepromEvent) :
    writeSpans (EepromEvent.savingCallback n :: l) = writeSpans l := rfl

theorem writeSpans_savedCb_cons (l : List EepromEvent) :
    writeSpans (EepromEvent.savedCallback :: l) = writeSpans l := rfl

theorem readSpans_begin_cons (n : Nat) (l : List EepromEvent) :
    readSpans (EepromEvent.begin n :: l) = readSpans l := rfl

/-- After `saveConfig`, the head of the region holds exactly the expected
version tag: the leaf writes start past the tag and the tag bytes written
by `saveConfigVersion` read back unchanged. -/
theorem testConfigVersion_after_save (savingCb savedCb : Bool) (root : ConfigItem)
    (ver : Nat → Nat) (e : EEPROM)
    (hv : ∀ t, t < IOTWEBCONF_CONFIG_VERSION_LENGTH → ver t < 256) :
    testConfigVersion ver (saveConfig savingCb savedCb root ver e).1 = true := by
  simp only [testConfigVersion, List.all_eq_true, List.mem_range, beq_iff_eq]
  intro t ht
  have ht4 : t < 4 := by
    simpa [IOTWEBCONF_CONFIG_VERSION_LENGTH] using ht
  simp only [saveConfig]
  rw [storeValue_frame root _ _ _
    (by simp [IOTWEBCONF_CONFIG_START, IOTWEBCONF_CONFIG_VERSION_LENGTH]; omega)]
  simp only [saveConfigVersion, IOTWEBCONF_CONFIG_START, IOTWEBCONF_CONFIG_VERSION_LENGTH]
  have hlen : t < ((List.range 4).map ver).length := by simpa using ht4
  rw [show (0 : Nat) + t = 0 + t from rfl, writeEepromValue_get _ _ _ _ hlen]
  rw [List.getD_eq_getElem _ 0 hlen]
  simp only [List.getElem_map, List.getElem_range]
  exact Nat.mod_eq_of_lt (hv t ht)

/-- C1: saving and then loading the unmodified registered tree succeeds,
reproduces every leaf's bytes exactly (the whole tree is unchanged), and
both operations open the region with the same total size and visit the
same per-leaf spans — the version-tag length plus the running sum of leaf
storage sizes. -/
theorem saveConfig_loadConfig_roundTrip (savingCb savedCb : Bool)
    (root : ConfigItem) (ver : Nat → Nat) (e : EEPROM)
    (hb : bytesOk root = true)
    (hv : ∀ t, t < IOTWEBCONF_CONFIG_VERSION_LENGTH → ver t < 256) :
    (loadConfig root ver (saveConfig savingCb savedCb root ver e).1).1 = true
    ∧ (loadConfig root ver (saveConfig savingCb savedCb root ver e).1).2.1 = root
    ∧ beginSizes (loadConfig root ver (saveConfig savingCb savedCb root ver e).1).2.2
        = [IOTWEBCONF_CONFIG_START + IOTWEBCONF_CONFIG_VERSION_LENGTH + getStorageSize root]
    ∧ beginSizes (saveConfig savingCb savedCb root ver e).2
        = [IOTWEBCONF_CONFIG_START + IOTWEBCONF_CONFIG_VERSION_LENGTH + getStorageSize root]
    ∧ readSpans (loadConfig root ver (saveConfig savingCb savedCb root ver e).1).2.2
        = leafSpans root (IOTWEBCONF_CONFIG_START + IOTWEBCONF_CONFIG_VERSION_LENGTH)
    ∧ writeSpans (saveConfig savingCb savedCb root ver e).2
        = leafSpans root (IOTWEBCONF_CONFIG_START + IOTWEBCONF_CONFIG_VERSION_LENGTH) := by
  have htest := testConfigVersion_after_save savingCb savedCb root ver e hv
  have hload : (loadValue root
      (IOTWEBCONF_CONFIG_START + IOTWEBCONF_CONFIG_VERSION_LENGTH)
      (saveConfig savingCb savedCb root ver e).1).1 = root := by
    apply loadValue_after_store root _ (saveConfigVersion ver e) _ hb
    intro a _ _
    rfl
  refine ⟨?_, ?_, ?_, ?_, ?_, ?_⟩
  · simp only [loadConfig, htest, if_true]
  · simp only [loadConfig, htest, if_true]
    exact hload
  · simp only [loadConfig, htest, if_true, initConfig]
    rw [loadValue_events]
    simp [beginSizes, List.filterMap_cons, beginSizes_map_read]
  · cases savingCb <;> cases savedCb <;>
      simp [saveConfig, beginSizes, List.filterMap_append, List.filterMap_cons,
        beginSizes_map_write, storeValue_events, initConfig]
  · simp only [loadConfig, htest, if_true]
    rw [loadValue_events]
    simp [readSpans_begin_cons, readSpans_map_read]
  · cases savingCb <;> cases savedCb <;>
      simp [saveConfig, initConfig, storeValue_events, writeSpans_append,
        writeSpans_map_write, writeSpans_nil, writeSpans_begin_cons,
        writeSpans_close_cons, writeSpans_savingCb_cons, writeSpans_savedCb_cons]

/-- A concrete tree, expected-version bytes, and store used to instantiate
the round-trip theorem. -/
def witRoot : ConfigItem :=
  .group "iwcAll"
    [.group "iwcSys"
      [.leaf { id := "iwcThingName", label := "Thing name", value := [116, 101, 115, 116],
               defaultValue := [109], visible := true, errorMessage := none },
       .leaf { id := "iwcApPassword", label := "AP password", value := [1, 2, 3],
               defaultValue := [], visible := true, errorMessage := none }],
     .group "iwcCustom"
      [.leaf { id := "custom1", label := "Custom", value := [255, 0],
               defaultValue := [7], visible := true, errorMessage := none }],
     .group "hidden" []]

/-- A concrete expected-version byte sequence. -/
def witVer : Nat → Nat := fun _ => 105

/-- A concrete all-zero store. -/
def witE : EEPROM := fun _ => 0

/-- C1 witness: the round-trip theorem applied to the concrete tree. -/
theorem saveConfig_loadConfig_roundTrip_witness :
    bytesOk witRoot = true
    ∧ (loadConfig witRoot witVer (saveConfig false false witRoot witVer witE).1).1 = true
    ∧ (loadConfig witRoot witVer (saveConfig false false witRoot witVer witE).1).2.1 = witRoot
    ∧ writeSpans (saveConfig false false witRoot witVer witE).2
        = leafSpans witRoot (IOTWEBCONF_CONFIG_START + IOTWEBCONF_CONFIG_VERSION_LENGTH) := by
  have h := saveConfig_loadConfig_roundTrip false false witRoot witVer witE
    (by decide) (fun _ _ => by norm_num [witVer])
  exact ⟨by decide, h.1, h.2.1, h.2.2.2.2.2⟩

/-- C2: `loadConfig` reports an invalid configuration exactly when some
byte of the stored version tag differs from the expected tag byte, and in
that case every leaf of the whole tree holds its default afterwards.  The
outcome is the boolean result of the (total) function — there is no other
error channel. -/
theorem loadConfig_version_mismatch (root : ConfigItem) (ver : Nat → Nat) (e : EEPROM) :
    ((loadConfig root ver e).1 = false
      ↔ ∃ t, t < IOTWEBCONF_CONFIG_VERSION_LENGTH
          ∧ e (IOTWEBCONF_CONFIG_START + t) ≠ ver t)
    ∧ ((loadConfig root ver e).1 = false →
        leafValues (loadConfig root ver e).2.1 = leafDefaults root) := by
  by_cases h : testConfigVersion ver e
  · simp only [testConfigVersion, List.all_eq_true, List.mem_range, beq_iff_eq] at h
    constructor
    · simp only [loadConfig, testConfigVersion]
      rw [if_pos (by simp only [List.all_eq_true, List.mem_range, beq_iff_eq]; exact h)]
      simp only [Bool.true_eq_false, false_iff]
      rintro ⟨t, ht, hne⟩
      exact hne (h t ht)
    · simp only [loadConfig, testConfigVersion]
      rw [if_pos (by simp only [List.all_eq_true, List.mem_range, beq_iff_eq]; exact h)]
      simp
  · have h' : ∃ t, t < IOTWEBCONF_CONFIG_VERSION_LENGTH
        ∧ e (IOTWEBCONF_CONFIG_START + t) ≠ ver t := by
      by_contra hc
      push_neg at hc
      exact h (by
        simp only [testConfigVersion, List.all_eq_true, List.mem_range, beq_iff_eq]
        intro t ht
        exact hc t ht)
    constructor
    · simp only [loadConfig, if_neg h]
      simpa using h'
    · intro _
      simp only [loadConfig, if_neg h]
      exact applyDefaultValue_leafValues root

/-- C2 witness: a mismatching store (all zero bytes against nonzero
expected tag) makes `loadConfig` fail and leaves every leaf at its
default. -/
theorem loadConfig_version_mismatch_witness :
    (loadConfig witRoot witVer witE).1 = false
    ∧ leafValues (loadConfig witRoot witVer witE).2.1 = leafDefaults witRoot := by
  have h := loadConfig_version_mismatch witRoot witVer witE
  have hfalse : (loadConfig witRoot witVer witE).1 = false := by decide
  exact ⟨hfalse, h.2 hfalse⟩

/-- C4 (refuting the claim): the `EEPROM.end()` at the end of
`IotWebConf::loadConfig` is unreachable — both branches return first — so
no invocation of `loadConfig` ever releases the store handle it opens,
while `saveConfig` does reach its `EEPROM.end()`. -/
theorem loadConfig_never_releases (root : ConfigItem) (ver : Nat → Nat) (e : EEPROM) :
    ((loadConfig root ver e).2.2.all fun ev => !(ev == EepromEvent.close)) = true
    ∧ ((loadConfig root ver e).2.2.any fun ev =>
        ev == EepromEvent.begin (IOTWEBCONF_CONFIG_START
          + IOTWEBCONF_CONFIG_VERSION_LENGTH + getStorageSize root)) = true
    ∧ ((saveConfig false false root ver e).2.any fun ev =>
        ev == EepromEvent.close) = true := by
  refine ⟨?_, ?_, ?_⟩
  · by_cases h : testConfigVersion ver e
    · simp only [loadConfig, if_pos h, initConfig]
      rw [loadValue_events]
      simp only [List.all_cons, List.all_eq_true, Bool.and_eq_true]
      constructor
      · simp
      · intro p hp
        rcases List.mem_map.mp hp with ⟨q, _, rfl⟩
        simp
    · simp only [loadConfig, if_neg h, initConfig]
      simp
  · by_cases h : testConfigVersion ver e <;>
      simp [loadConfig, h, initConfig, List.any_cons]
  · simp [saveConfig, List.any_append]

/-! ### Captive portal claims -/

/-- A request whose host header is the device name in capitals. -/
def hostCaseReq : WebRequest :=
  { hostHeader := "MYTHING".toList, localIP := 0, authOk := true, args := [] }

/-- The redirect condition in the words of the claim (for comparison with
the source behaviour): the host is neither an IP (per the code's test) nor
a case-insensitive prefix match of the device name. -/
def claimRedirectCondition (thingName host : List Char) : Bool :=
  !isIp host && !startsWith (toLowerCase host) (toLowerCase thingName)

/-- C3 counterexample: host "MYTHING" with device name "mything" is a
case-insensitive prefix match (and no IP), so the claim says no redirect —
but the code lowercases only the device name and compares the host as
received, so it redirects and returns true. -/
theorem handleCaptivePortal_case_insensitive_refuted :
    (handleCaptivePortal ("mything".toList) hostCaseReq).1 = true
    ∧ claimRedirectCondition ("mything".toList) hostCaseReq.hostHeader = false := by
  constructor <;> decide

/-- C3 (amended): `handleCaptivePortal` redirects, closes the connection
and returns true exactly when the host header is neither a digits-and-dots
string (the code's IP test) nor an extension of the lowercased device name
as a *case-sensitive* prefix — only the device name is lowercased, the
host is compared as received.  On redirect it emits a Location header to
the device's own address, a 302, and a stop; otherwise nothing.  Host
"192.168.4.1" is treated as an IP and never redirected; host
"evil.example.com" with device name "mything" is redirected. -/
theorem handleCaptivePortal_spec (tn : List Char) (req : WebRequest) :
    ((handleCaptivePortal tn req).1
       = (!isIp req.hostHeader && !startsWith req.hostHeader (toLowerCase tn)))
    ∧ ((handleCaptivePortal tn req).1 = true →
        (handleCaptivePortal tn req).2 =
          [.sendHeader "Location" ("http://".toList ++ toStringIp req.localIP) true,
           .send 302 "text/plain" [],
           .stop])
    ∧ ((handleCaptivePortal tn req).1 = false → (handleCaptivePortal tn req).2 = [])
    ∧ (req.hostHeader = "192.168.4.1".toList → (handleCaptivePortal tn req).1 = false)
    ∧ (req.hostHeader = "evil.example.com".toList →
        (handleCaptivePortal ("mything".toList) req).1 = true
        ∧ (handleCaptivePortal ("mything".toList) req).2 =
            [.sendHeader "Location" ("http://".toList ++ toStringIp req.localIP) true,
             .send 302 "text/plain" [],
             .stop]) := by
  refine ⟨?_, ?_, ?_, ?_, ?_⟩
  · by_cases h : (!isIp req.hostHeader && !startsWith req.hostHeader (toLowerCase tn)) = true
    · simp [handleCaptivePortal, h]
    · simp only [Bool.not_eq_true] at h
      simp [handleCaptivePortal, h]
  · intro h
    by_cases hc : (!isIp req.hostHeader && !startsWith req.hostHeader (toLowerCase tn)) = true
    · simp [handleCaptivePortal, hc]
    · simp only [Bool.not_eq_true] at hc
      simp [handleCaptivePortal, hc] at h
  · intro h
    by_cases hc : (!isIp req.hostHeader && !startsWith req.hostHeader (toLowerCase tn)) = true
    · simp [handleCaptivePortal, hc] at h
    · simp only [Bool.not_eq_true] at hc
      simp [handleCaptivePortal, hc]
  · intro h
    have hip : isIp req.hostHeader = true := by rw [h]; decide
    simp [handleCaptivePortal, hip]
  · intro h
    have h1 : isIp req.hostHeader = false := by rw [h]; decide
    have h2 : startsWith req.hostHeader
        (toLowerCase ['m', 'y', 't', 'h', 'i', 'n', 'g']) = false := by
      rw [h]; decide
    simp [handleCaptivePortal, h1, h2]

/-- C3 witness: the amended theorem applied to the two concrete hosts. -/
theorem handleCaptivePortal_spec_witness :
    (handleCaptivePortal ("mything".toList)
      { hostHeader := "192.168.4.1".toList, localIP := 5, authOk := true, args := [] }).1 = false
    ∧ (handleCaptivePortal ("mything".toList)
      { hostHeader := "evil.example.com".toList, localIP := 5, authOk := true, args := [] }).1 = true :=
  ⟨(handleCaptivePortal_spec ("mything".toList) _).2.2.2.1 rfl,
   ((handleCaptivePortal_spec ("mything".toList) _).2.2.2.2 rfl).1⟩

/-- C10: `isIp` accepts exactly the strings whose characters are all `.` or
decimal digits — including the empty string and malformed addresses such
as "..." and "999.999.999.999" — and rejects the rest; consequently
`handleCaptivePortal` never redirects a host made only of digits and dots,
whatever the device name. -/
theorem isIp_digits_dots (s : List Char) :
    (isIp s = true ↔ ∀ c ∈ s, c = '.' ∨ ('0' ≤ c ∧ c ≤ '9'))
    ∧ isIp [] = true
    ∧ isIp ("...".toList) = true
    ∧ isIp ("999.999.999.999".toList) = true
    ∧ (∀ (tn : List Char) (req : WebRequest),
        (∀ c ∈ req.hostHeader, c = '.' ∨ ('0' ≤ c ∧ c ≤ '9')) →
        (handleCaptivePortal tn req).1 = false
        ∧ (handleCaptivePortal tn req).2 = []) := by
  refine ⟨?_, by decide, by decide, by decide, ?_⟩
  · simp [isIp, List.all_eq_true]
  · intro tn req h
    have hip : isIp req.hostHeader = true := by
      simp only [isIp, List.all_eq_true]
      intro c hc
      rcases h c hc with h1 | h2
      · simp [h1]
      · simp [h2.1, h2.2]
    simp [handleCaptivePortal, hip]

/-- C10 witness: the characterization applied to concrete hosts. -/
theorem isIp_digits_dots_witness :
    isIp ("192.168.4.1".toList) = true
    ∧ (handleCaptivePortal ("mything".toList)
        { hostHeader := "...".toList, localIP := 0, authOk := true, args := [] }).1 = false :=
  ⟨(isIp_digits_dots ("192.168.4.1".toList)).1.mpr (by decide),
   ((isIp_digits_dots ("...".toList)).2.2.2.2 ("mything".toList) _ (by decide)).1⟩

/-! ### Form validation claims -/

/-- Full characterization of a `validateForm` pass: verdict, both error
fields, and the step trace. -/
theorem validateForm_eval (s : IotWebConf) (req : WebRequest) :
    ((validateForm s req).1
       = (externalValidatorResult s req
           && !decide ((req.arg "iwcThingName").length < 3)
           && !(decide (0 < (req.arg "iwcApPassword").length)
                && decide ((req.arg "iwcApPassword").length < 8))))
    ∧ ((validateForm s req).2.1.thingNameError
         = if (req.arg "iwcThingName").length < 3
           then some thingNameErrorMessage else none)
    ∧ ((validateForm s req).2.1.apPasswordError
         = if 0 < (req.arg "iwcApPassword").length ∧ (req.arg "iwcApPassword").length < 8
           then some apPasswordErrorMessage else none)
    ∧ ((validateForm s req).2.2
         = [ValEvent.clearErrors]
             ++ (if s.formValidator.isSome then [ValEvent.externalValidator] else [])
             ++ [ValEvent.checkThingName, ValEvent.checkApPassword]) := by
  by_cases h1 : (req.arg "iwcThingName").length < 3 <;>
  by_cases h2a : 0 < (req.arg "iwcApPassword").length <;>
  by_cases h2b : (req.arg "iwcApPassword").length < 8 <;>
    simp [validateForm, h1, h2a, h2b]

/-- C5: the external validator (when registered) runs before the built-in
checks, every built-in check runs and records its error regardless of
earlier failures, the verdict is the conjunction of the external result
and both built-in checks, and a 2-character thing name together with a
5-character AP password sets both error messages in the same pass. -/
theorem validateForm_contract (s : IotWebConf) (req : WebRequest) :
    ((validateForm s req).1
       = (externalValidatorResult s req
           && !decide ((req.arg "iwcThingName").length < 3)
           && !(decide (0 < (req.arg "iwcApPassword").length)
                && decide ((req.arg "iwcApPassword").length < 8))))
    ∧ ((validateForm s req).2.1.thingNameError
         = if (req.arg "iwcThingName").length < 3
           then some thingNameErrorMessage else none)
    ∧ ((validateForm s req).2.1.apPasswordError
         = if 0 < (req.arg "iwcApPassword").length ∧ (req.arg "iwcApPassword").length < 8
           then some apPasswordErrorMessage else none)
    ∧ ((validateForm s req).2.2
         = [ValEvent.clearErrors]
             ++ (if s.formValidator.isSome then [ValEvent.externalValidator] else [])
             ++ [ValEvent.checkThingName, ValEvent.checkApPassword])
    ∧ ((req.arg "iwcThingName").length = 2 → (req.arg "iwcApPassword").length = 5 →
        (validateForm s req).2.1.thingNameError = some thingNameErrorMessage
        ∧ (validateForm s req).2.1.apPasswordError = some apPasswordErrorMessage) := by
  have h := validateForm_eval s req
  refine ⟨h.1, h.2.1, h.2.2.1, h.2.2.2, ?_⟩
  intro he1 he2
  rw [h.2.1, h.2.2.1]
  rw [if_pos (by omega), if_pos (by omega)]
  exact ⟨rfl, rfl⟩

/-- The empty template provider used by concrete instances. -/
def trivialProvider : HtmlFormatProvider :=
  { head := [], script := [], style := [], headExtension := [], headEnd := [],
    formStart := [], formEnd := [], htmlEnd := [], updateFragment := [],
    configVerFragment := [] }

/-- A concrete `IotWebConf` object: defaults registered, no custom groups,
no external validator. -/
def wifState : IotWebConf :=
  { thingNameValue := List.replicate 33 0, apPasswordValue := List.replicate 33 0,
    thingNameDefault := [109, 121, 116], initialApPassword := [112, 119, 100],
    configVersion := "init".toList, thingNameError := none, apPasswordError := none,
    customParameterGroups := [], hiddenParameters := [], formValidator := none,
    savingCb := false, savedCb := false, updatePath := none,
    htmlFormatProvider := trivialProvider }

/-- A submission with a 2-character thing name and a 5-character password. -/
def reqShortBoth : WebRequest :=
  { hostHeader := [], localIP := 0, authOk := true,
    args := [("iotSave", "true".toList), ("iwcThingName", "ab".toList),
             ("iwcApPassword", "12345".toList)] }

/-- C5 witness: both error messages are set simultaneously on the concrete
short submission. -/
theorem validateForm_contract_witness :
    (validateForm wifState reqShortBoth).2.1.thingNameError = some thingNameErrorMessage
    ∧ (validateForm wifState reqShortBoth).2.1.apPasswordError = some apPasswordErrorMessage :=
  (validateForm_contract wifState reqShortBoth).2.2.2.2 (by decide) (by decide)

/-- C6: with the external validator accepting, the built-in checks accept a
thing name of length exactly 3 and reject length 2; they accept an AP
password of length 0 (empty is valid) and of length 8, and reject
length 7. -/
theorem validateForm_boundary (s : IotWebConf) (req : WebRequest)
    (hext : externalValidatorResult s req = true) :
    ((req.arg "iwcThingName").length = 3 →
        (validateForm s req).2.1.thingNameError = none
        ∧ ((req.arg "iwcApPassword").length = 0 → (validateForm s req).1 = true)
        ∧ ((req.arg "iwcApPassword").length = 8 → (validateForm s req).1 = true))
    ∧ ((req.arg "iwcThingName").length = 2 →
        (validateForm s req).2.1.thingNameError = some thingNameErrorMessage
        ∧ (validateForm s req).1 = false)
    ∧ ((req.arg "iwcApPassword").length = 0 →
        (validateForm s req).2.1.apPasswordError = none)
    ∧ ((req.arg "iwcApPassword").length = 8 →
        (validateForm s req).2.1.apPasswordError = none)
    ∧ ((req.arg "iwcApPassword").length = 7 →
        (validateForm s req).2.1.apPasswordError = some apPasswordErrorMessage
        ∧ (validateForm s req).1 = false) := by
  have h := validateForm_eval s req
  refine ⟨?_, ?_, ?_, ?_, ?_⟩
  · intro he
    refine ⟨by rw [h.2.1, if_neg (by omega)], ?_, ?_⟩
    · intro hp
      rw [h.1, hext, he, hp]
      decide
    · intro hp
      rw [h.1, hext, he, hp]
      decide
  · intro he
    constructor
    · rw [h.2.1, if_pos (by omega)]
    · rw [h.1, he]
      simp
  · intro hp
    rw [h.2.2.1, if_neg (by omega)]
  · intro hp
    rw [h.2.2.1, if_neg (by omega)]
  · intro hp
    constructor
    · rw [h.2.2.1, if_pos (by omega)]
    · rw [h.1, hp]
      simp

/-- A submission at the accepting boundary: 3-character thing name, empty
password. -/
def reqBoundary : WebRequest :=
  { hostHeader := [], localIP := 0, authOk := true,
    args := [("iotSave", "true".toList), ("iwcThingName", "abc".toList),
             ("iwcApPassword", [])] }

/-- C6 witness: the boundary theorem at the concrete accepting submission. -/
theorem validateForm_boundary_witness :
    (validateForm wifState reqBoundary).2.1.thingNameError = none
    ∧ (validateForm wifState reqBoundary).1 = true := by
  have h := validateForm_boundary wifState reqBoundary rfl
  exact ⟨(h.1 (by decide)).1, (h.1 (by decide)).2.1 (by decide)⟩

/-! ### Config portal request handling claims -/

mutual
theorem clearErrorMessage_leafValues : ∀ (it : ConfigItem),
    leafValues (clearErrorMessage it) = leafValues it
  | .leaf _ => rfl
  | .group g cs => by
    simpa [clearErrorMessage, leafValues] using clearErrorMessageList_leafValues cs
theorem clearErrorMessageList_leafValues : ∀ (cs : List ConfigItem),
    leafValuesList (clearErrorMessageList cs) = leafValuesList cs
  | [] => rfl
  | c :: cs => by
    simp only [clearErrorMessageList, leafValuesList]
    rw [clearErrorMessage_leafValues c, clearErrorMessageList_leafValues cs]
end

/-- `validateForm` only touches error-message state: every other field of
the object is unchanged, and the custom groups are only error-cleared. -/
theorem validateForm_state (s : IotWebConf) (req : WebRequest) :
    (validateForm s req).2.1.thingNameValue = s.thingNameValue
    ∧ (validateForm s req).2.1.apPasswordValue = s.apPasswordValue
    ∧ (validateForm s req).2.1.customParameterGroups
        = clearErrorMessageList s.customParameterGroups
    ∧ (validateForm s req).2.1.hiddenParameters = s.hiddenParameters
    ∧ (validateForm s req).2.1.thingNameDefault = s.thingNameDefault
    ∧ (validateForm s req).2.1.initialApPassword = s.initialApPassword
    ∧ (validateForm s req).2.1.configVersion = s.configVersion
    ∧ (validateForm s req).2.1.formValidator = s.formValidator
    ∧ (validateForm s req).2.1.savingCb = s.savingCb
    ∧ (validateForm s req).2.1.savedCb = s.savedCb
    ∧ (validateForm s req).2.1.updatePath = s.updatePath
    ∧ (validateForm s req).2.1.htmlFormatProvider = s.htmlFormatProvider := by
  by_cases h1 : (req.arg "iwcThingName").length < 3 <;>
  by_cases h2a : 0 < (req.arg "iwcApPassword").length <;>
  by_cases h2b : (req.arg "iwcApPassword").length < 8 <;>
    simp [validateForm, h1, h2a, h2b]

/-- C7: a submission carrying the save marker whose thing name is "ab"
(2 characters) fails validation: `handleConfig` leaves the store untouched
(no EEPROM interaction at all), updates no parameter buffer, re-renders
the form against the post-validation state, and that render carries the
thing-name error message. -/
theorem handleConfig_validation_failure (s : IotWebConf) (req : WebRequest) (e : EEPROM)
    (hauth : req.authOk = true) (hsave : req.hasArg "iotSave" = true)
    (htn : req.arg "iwcThingName" = ['a', 'b']) :
    (handleConfig s req e).2.1 = e
    ∧ (handleConfig s req e).2.2.2 = []
    ∧ (handleConfig s req e).1.thingNameError = some thingNameErrorMessage
    ∧ (handleConfig s req e).1.thingNameValue = s.thingNameValue
    ∧ (handleConfig s req e).1.apPasswordValue = s.apPasswordValue
    ∧ leafValuesList (handleConfig s req e).1.customParameterGroups
        = leafValuesList s.customParameterGroups
    ∧ (handleConfig s req e).1.hiddenParameters = s.hiddenParameters
    ∧ (handleConfig s req e).2.2.1
        = renderFormPage (handleConfig s req e).1 true req
    ∧ (∃ u v, renderHtml (systemParameters (handleConfig s req e).1) true req
        = u ++ thingNameErrorMessage.toList ++ v) := by
  have hlen : (req.arg "iwcThingName").length = 2 := by rw [htn]; rfl
  have hv := validateForm_eval s req
  have hst := validateForm_state s req
  have hvalid : (validateForm s req).1 = false := by
    rw [hv.1]
    have hd : decide ((req.arg "iwcThingName").length < 3) = true := by simp [hlen]
    simp [hd]
  have hred : handleConfig s req e
      = ((validateForm s req).2.1, e,
         renderFormPage (validateForm s req).2.1 true req, []) := by
    simp [handleConfig, hauth, hsave, hvalid]
  have herr : (validateForm s req).2.1.thingNameError = some thingNameErrorMessage := by
    rw [hv.2.1, if_pos (by omega)]
  rw [hred]
  refine ⟨rfl, rfl, herr, hst.1, hst.2.1, ?_, hst.2.2.2.1, rfl, ?_⟩
  · rw [hst.2.2.1]
    exact clearErrorMessageList_leafValues s.customParameterGroups
  · refine ⟨"Thing name".toList ++ req.arg "iwcThingName",
      renderHtml (.leaf (apPasswordParameter (validateForm s req).2.1)) true req, ?_⟩
    simp [systemParameters, renderHtml, renderHtmlList, thingNameParameter, herr]

/-- C7 witness: the concrete short-name submission against the concrete
object and an all-zero store. -/
theorem handleConfig_validation_failure_witness :
    (handleConfig wifState reqShortBoth witE).2.1 = witE
    ∧ (handleConfig wifState reqShortBoth witE).1.thingNameError
        = some thingNameErrorMessage := by
  have h := handleConfig_validation_failure wifState reqShortBoth witE
    (by decide) (by decide) (by decide)
  exact ⟨h.1, h.2.2.1⟩

/-- C9: on a store whose head does not hold the expected version tag,
`init` reports an invalid configuration, the thing-name buffer holds the
default thing name supplied at construction (zero-padded to its fixed
capacity), and the AP-password buffer holds the initial AP password
supplied at construction (not the parameter's empty default). -/
theorem init_fresh_store (s : IotWebConf) (e : EEPROM)
    (hlen1 : s.thingNameValue.length = IOTWEBCONF_WORD_LEN)
    (hfresh : testConfigVersion (verByte s) e = false) :
    (IotWebConf.init s e).1 = false
    ∧ (IotWebConf.init s e).2.thingNameValue
        = takePad s.thingNameDefault IOTWEBCONF_WORD_LEN
    ∧ (IotWebConf.init s e).2.apPasswordValue
        = takePad s.initialApPassword IOTWEBCONF_PASSWORD_LEN := by
  have hload : loadConfig (allParameters s) (verByte s) e
      = (false, applyDefaultValue (allParameters s),
         [EepromEvent.begin (IOTWEBCONF_CONFIG_START + IOTWEBCONF_CONFIG_VERSION_LENGTH
           + initConfig (allParameters s))]) := by
    simp [loadConfig, hfresh]
  simp only [IotWebConf.init, hload]
  simp [allParameters, systemParameters, applyDefaultValue, applyDefaultValueList,
    absorbTree, thingNameParameter, apPasswordParameter, hlen1]

/-- C9 witness: the concrete object over the all-zero store (whose head
cannot match the nonzero tag "init"). -/
theorem init_fresh_store_witness :
    (IotWebConf.init wifState witE).1 = false
    ∧ (IotWebConf.init wifState witE).2.thingNameValue
        = takePad wifState.thingNameDefault IOTWEBCONF_WORD_LEN
    ∧ (IotWebConf.init wifState witE).2.apPasswordValue
        = takePad wifState.initialApPassword IOTWEBCONF_PASSWORD_LEN :=
  init_fresh_store wifState witE (by decide) (by decide)

/-- A hidden parameter: registered via `addHiddenParameter`, persisted by
the save traversal of `_allParameters`, but absent from the groups that
`handleConfig` updates. -/
def hiddenLeaf : LeafData :=
  { id := "hp", label := "Hidden", value := [1, 2, 3], defaultValue := [0, 0, 0],
    visible := false, errorMessage := none }

/-- The concrete object with one hidden parameter registered. -/
def hiddenState : IotWebConf :=
  { wifState with hiddenParameters := [.leaf hiddenLeaf] }

/-- A valid submission that also carries a value for the hidden
parameter's identifier. -/
def reqHidden : WebRequest :=
  { hostHeader := [], localIP := 0, authOk := true,
    args := [("iotSave", "true".toList), ("iwcThingName", "abc".toList),
             ("iwcApPassword", []), ("hp", "XYZ".toList)] }

/-- C8 counterexample: on a passing submission, `handleConfig` persists the
hidden parameter (its span at offset 70 is written, and the stored bytes
are its old value `[1, 2, 3]`) without updating it from the submitted
value "XYZ" for its identifier — so not every item stored by the
persistence traversal is updated from the submission. -/
theorem handleConfig_hidden_not_updated :
    (handleConfig hiddenState reqHidden witE).1.hiddenParameters = [.leaf hiddenLeaf]
    ∧ (70, 3) ∈ writeSpans (handleConfig hiddenState reqHidden witE).2.2.2
    ∧ readEepromValue (handleConfig hiddenState reqHidden witE).2.1 70 3 = [1, 2, 3]
    ∧ takePad (charsToBytes (reqHidden.arg "hp")) 3 = [88, 89, 90]
    ∧ ¬([1, 2, 3] = [88, 89, 90]) := by
  decide

/-- C8 (amended): when the submission carries the save marker and
validation passes, `handleConfig` updates the two system parameters and
every custom-group leaf from the submitted form data, then persists the
authoritative root via the save path and emits the confirmation page —
but the hidden parameters, although part of the persistence traversal,
are left unmodified rather than updated from the submission. -/
theorem handleConfig_valid_save (s : IotWebConf) (req : WebRequest) (e : EEPROM)
    (hauth : req.authOk = true) (hsave : req.hasArg "iotSave" = true)
    (hvalid : (validateForm s req).1 = true) :
    (handleConfig s req e).1.thingNameValue
        = takePad (charsToBytes (req.arg "iwcThingName")) s.thingNameValue.length
    ∧ (handleConfig s req e).1.apPasswordValue
        = takePad (charsToBytes (req.arg "iwcApPassword")) s.apPasswordValue.length
    ∧ (handleConfig s req e).1.customParameterGroups
        = updateItemList (clearErrorMessageList s.customParameterGroups) req
    ∧ (handleConfig s req e).1.hiddenParameters = s.hiddenParameters
    ∧ (handleConfig s req e).2.1
        = (saveConfig (handleConfig s req e).1.savingCb (handleConfig s req e).1.savedCb
            (allParameters (handleConfig s req e).1)
            (verByte (handleConfig s req e).1) e).1
    ∧ (handleConfig s req e).2.2.2
        = (saveConfig (handleConfig s req e).1.savingCb (handleConfig s req e).1.savedCb
            (allParameters (handleConfig s req e).1)
            (verByte (handleConfig s req e).1) e).2
    ∧ (handleConfig s req e).2.2.1 = confirmPage (handleConfig s req e).1 := by
  have hst := validateForm_state s req
  have hbranch : handleConfig s req e
      = (updateFromRequest (validateForm s req).2.1 req,
         (saveConfig (updateFromRequest (validateForm s req).2.1 req).savingCb
           (updateFromRequest (validateForm s req).2.1 req).savedCb
           (allParameters (updateFromRequest (validateForm s req).2.1 req))
           (verByte (updateFromRequest (validateForm s req).2.1 req)) e).1,
         confirmPage (updateFromRequest (validateForm s req).2.1 req),
         (saveConfig (updateFromRequest (validateForm s req).2.1 req).savingCb
           (updateFromRequest (validateForm s req).2.1 req).savedCb
           (allParameters (updateFromRequest (validateForm s req).2.1 req))
           (verByte (updateFromRequest (validateForm s req).2.1 req)) e).2) := by
    simp [handleConfig, hauth, hsave, hvalid]
  rw [hbranch]
  refine ⟨?_, ?_, ?_, ?_, rfl, rfl, rfl⟩
  · simp [updateFromRequest, hst.1]
  · simp [updateFromRequest, hst.2.1]
  · simp [updateFromRequest, hst.2.2.1]
  · simp [updateFromRequest, hst.2.2.2.1]

/-- C8 witness: the amended theorem at the concrete object with a hidden
parameter and the concrete passing submission. -/
theorem handleConfig_valid_save_witness :
    (handleConfig hiddenState reqHidden witE).1.thingNameValue
        = takePad (charsToBytes (reqHidden.arg "iwcThingName"))
            hiddenState.thingNameValue.length
    ∧ (handleConfig hiddenState reqHidden witE).1.hiddenParameters
        = hiddenState.hiddenParameters := by
  have h := handleConfig_valid_save hiddenState reqHidden witE
    (by decide) (by decide) (by decide)
  exact ⟨h.1, h.2.2.2.1⟩

end IotWebConfLite
